import Mathlib

/-!
Verification development for the navigation core of `navigation_slam`:
the lattice-based anytime global planner
(`search_based_global_planner/src/search_based_global_planner.cc`) and the
navigation supervisor (`service_robot/src/astar_controller.cc`).

The planner is embedded as executable state-passing functions over an
abstract lattice environment; the supervisor's branch logic is embedded as
pure functions over exact rationals.  Real time (ros clocks, allocated_time)
is modelled by fuel; C++ doubles are modelled by `ℚ`; C++ ints by `ℕ`/`ℤ`
with the planner's `INFINITECOST` sentinel kept as a plain large constant
(no arithmetic in the traces comes near overflow).
-/

set_option maxRecDepth 20000

namespace NavSlam

/-! ## Part 1 — supervisor branch logic (`astar_controller.cc`) -/

/-- Planner variants selectable by `AStarController::MakePlan`. -/
inductive GPlanner
  | direct2pt  -- start/goal taken directly as the plan
  | bezier
  | sbpl       -- direct lattice search
  | astar2d    -- coarse 2D A*, sampled into the fix-path
deriving DecidableEq, Repr

/-- Supervisor flags threaded through `MakePlan` / `PlanThread`. -/
structure MPState where
  lastUsingBezier : Bool
  replanDirectly : Bool
  usingSbplDirectly : Bool
deriving DecidableEq, Repr

/-- Result of one `AStarController::MakePlan` call. -/
structure MPResult where
  choice : GPlanner
  success : Bool
  twoPointPlan : Bool   -- plan is exactly [start, goal]
  sampledFixPath : Bool -- SampleInitialPath + set_fix_path was used
  st : MPState
deriving DecidableEq, Repr

/-- `AStarController::MakePlan` (astar_controller.cc lines 110-252): planner
selection by straight-line start-goal distance `d`.  The success of the
bezier / sbpl / 2D-astar backends is abstracted by the boolean oracles
`bezierOk`, `sbplOk`, `astarOk` (bezier failure covers both "no curve found"
and "curve not footprint-safe", lines 146-157). -/
def MakePlan (st0 : MPState) (d sbplMax : ℚ) (bezierOk sbplOk astarOk : Bool) : MPResult :=
  let st := { st0 with replanDirectly := false }
  if d ≤ 1/4 then
    { choice := .direct2pt, success := true, twoPointPlan := true, sampledFixPath := false,
      st := { st with usingSbplDirectly := true, lastUsingBezier := false } }
  else if !st.lastUsingBezier && decide (d ≤ 2) then
    let st := { st with usingSbplDirectly := true, lastUsingBezier := true }
    if bezierOk then
      { choice := .bezier, success := true, twoPointPlan := false, sampledFixPath := false, st := st }
    else
      { choice := .bezier, success := false, twoPointPlan := false, sampledFixPath := false,
        st := { st with replanDirectly := true } }
  else if d ≤ sbplMax then
    { choice := .sbpl, success := sbplOk, twoPointPlan := false, sampledFixPath := false,
      st := { st with usingSbplDirectly := true, lastUsingBezier := false } }
  else
    { choice := .astar2d, success := astarOk, twoPointPlan := false, sampledFixPath := astarOk,
      st := { st with usingSbplDirectly := false, lastUsingBezier := false } }

/-- The `PlanThread` re-plan snippet (astar_controller.cc lines 388-393): after a
`MakePlan` that set `replan_directly_` (Bézier failure), `MakePlan` is invoked
again immediately.  Returns the sequence of `MakePlan` invocations made in one
planning cycle, as (choice, result) pairs. -/
def PlanThreadOnce (st0 : MPState) (d sbplMax : ℚ) (bezierOk sbplOk astarOk : Bool) :
    List MPResult :=
  let r1 := MakePlan st0 d sbplMax bezierOk sbplOk astarOk
  if r1.st.replanDirectly then
    let r2 := MakePlan r1.st d sbplMax bezierOk sbplOk astarOk
    [r1, r2]
  else [r1]

/-- Outcome of the front-safety block of `ExecuteCycle`'s FIX_CONTROLLING state. -/
structure FrontSafeOut where
  ratio : ℚ          -- cmd_vel_ratio_ after the block
  stopBranch : Bool  -- entered the "stop and wait up to stop_duration" branch
  replanMiddle : Bool      -- runPlanner_ enabled for a mid-path replan
  planningMiddle : Bool    -- planning_state_ set to P_INSERTING_MIDDLE
  cnt : ℕ            -- front_safe_check_cnt_ after the block
deriving DecidableEq, Repr

/-- Front-safety handling in FIX_CONTROLLING (astar_controller.cc lines
1289-1434), in the case where the near-goal branch (line 1293) does not apply.
`d` is the scanned clear distance `front_safe_dis`, `cnt` is
`front_safe_check_cnt_` on entry, `goalGot` abstracts `GetAStarGoal` success.
`cmd_vel_ratio_` is reset to 1 at line 1289 before the checks. -/
def FrontSafeStep (d frontCheckDis : ℚ) (cnt : ℕ) (runPlanner goalGot : Bool) : FrontSafeOut :=
  if d < frontCheckDis then
    if d ≤ 6/10 then
      -- lines 1342-1399: stop (or decelerate) and wait up to stop_duration
      { ratio := 1, stopBranch := true, replanMiddle := false, planningMiddle := false, cnt := 0 }
    else
      -- lines 1400-1431
      let ratio : ℚ := if d < 1 then 1/2 else if d < 17/10 then 7/10 else 1
      if !runPlanner && decide (cnt + 1 > 10) then
        if d < 6/10 then
          -- dead branch: here d > 6/10 always
          { ratio := ratio, stopBranch := true, replanMiddle := false, planningMiddle := false,
            cnt := cnt + 1 }
        else if d < 3/2 then
          { ratio := ratio, stopBranch := false, replanMiddle := goalGot,
            planningMiddle := goalGot, cnt := cnt + 1 }
        else
          -- line 1428: --front_safe_check_cnt_
          { ratio := ratio, stopBranch := false, replanMiddle := false, planningMiddle := false,
            cnt := cnt + 1 - 1 }
      else
        { ratio := ratio, stopBranch := false, replanMiddle := false, planningMiddle := false,
          cnt := if runPlanner then cnt else cnt + 1 }
  else
    { ratio := 1, stopBranch := false, replanMiddle := false, planningMiddle := false, cnt := 0 }

/-- The wait loop of the stop branch (astar_controller.cc lines 1353-1380):
each tick re-samples the clear distance; `front_safe` is declared (the robot
resumes) once `++front_safe_cnt > 2` held, i.e. after the third sample above
1.0 m; the counter is never reset inside the loop.  `samples` is the list
of distances sampled before `stop_duration` (or `run_flag`) ends the loop. -/
def StopWaitResumes (samples : List ℚ) : Bool :=
  go samples 0
where
  go : List ℚ → ℕ → Bool
  | [], _ => false
  | s :: rest, c =>
    if s > 1 then
      if c + 1 > 2 then true else go rest (c + 1)
    else go rest c

/-- Number of samples in the wait loop that cleared (distance > 1.0 m). -/
def clearCount (samples : List ℚ) : ℕ := (samples.filter (fun s => decide (s > 1))).length

/-- Outcome of the GLOBAL_PLANNER_RECOVERY_R dispatch. -/
inductive RecovOutcome
  | escape            -- footprint bad: EscapeRecovery then FIX_GETNEWGOAL_R
  | unreachable       -- I_GOAL_UNREACHABLE emitted, run_flag cleared
  | recoverNewGoal    -- bounded recovery then FIX_GETNEWGOAL_R
deriving DecidableEq, Repr

/-- GLOBAL_PLANNER_RECOVERY_R handling (astar_controller.cc lines 1589-1624).
Returns the outcome and the resulting `run_flag`.  `footprintBad` abstracts the
two footprint cost checks at lines 1595-1596 being negative. -/
def GlobalRecoveryStep (footprintBad : Bool) (timeoutCnt recoveryTimes : ℕ)
    (useFartherPlanner : Bool) : RecovOutcome × Bool :=
  if footprintBad then (.escape, true)
  else if (decide (timeoutCnt > 12) || decide (recoveryTimes > 8)) && !useFartherPlanner then
    (.unreachable, false)
  else (.recoverNewGoal, true)

/-- The planner-patience timeout branch of `PlanThread`
(astar_controller.cc lines 491-517).  Returns
(new `astar_planner_timeout_cnt_`, I_GOAL_UNREACHABLE emitted, run_flag cleared).
The branch is only taken when the patience deadline has passed and
`runPlanner_` is still set (line 497). -/
def PlanThreadTimeoutStep (patienceElapsed runPlanner gotInitPlan : Bool) (cnt : ℕ) :
    ℕ × Bool × Bool :=
  if patienceElapsed && runPlanner then
    let cnt' := cnt + 1
    if !gotInitPlan && decide (cnt' > 4) then (cnt', true, true)
    else (cnt', false, false)
  else (cnt, false, false)

/-- On an accepted plan, `PlanThread` resets `astar_planner_timeout_cnt_`
(astar_controller.cc line 412), making the timeout count consecutive. -/
def PlanThreadSuccessCnt : ℕ := 0

/-! Loop guards of the progress-polling loops named by the cancellation
contract.  Each definition transliterates the corresponding C++ `while`
condition; time-dependent conjuncts (`ros::Time::now() < end_time`) are the
boolean `timeLeft`, footprint checks are boolean oracles. -/

/-- Deceleration loop of `PublishVelWithAcc`, astar_controller.cc line 301. -/
def PublishVelWithAccGuard (vx : ℚ) (canForward runFlag : Bool) : Bool :=
  decide (|vx| > 1/1000) && canForward && runFlag

/-- Goal-safety re-check wait, astar_controller.cc line 1304. -/
def GoalSafetyWaitGuard (timeLeft runFlag : Bool) : Bool :=
  timeLeft && runFlag

/-- stop_duration wait of the front-safety stop branch, astar_controller.cc line 1359. -/
def StopDurationWaitGuard (timeLeft runFlag : Bool) : Bool :=
  timeLeft && runFlag

/-- New-goal retry wait of FIX_GETNEWGOAL_R, astar_controller.cc line 1646:
`while (ros::Time::now() < end_time)` — the guard polls only the clock; the
`runFlag` argument is taken to state the cancellation claim but is unused by
the code. -/
def NewGoalRetryGuard (runFlag timeLeft : Bool) : Bool :=
  timeLeft

/-- Pre-backward stop wait of `HandleGoingBack`, astar_controller.cc line 2188. -/
def GoingBackStopWaitGuard (timeLeft runFlag : Bool) : Bool :=
  timeLeft && runFlag

/-- Backward maneuver loop of `HandleGoingBack`, astar_controller.cc line 2202. -/
def GoingBackMoveGuard (runFlag needBackward canBackward : Bool) : Bool :=
  runFlag && needBackward && canBackward

/-- Backward maneuver loop of `GoingBackward`, astar_controller.cc line 2371. -/
def GoingBackwardGuard (timeLeft canBackward runFlag : Bool) : Bool :=
  timeLeft && canBackward && runFlag

/-- Forward maneuver loop of `GoingForward`, astar_controller.cc line 2420. -/
def GoingForwardGuard (timeLeft canForward runFlag : Bool) : Bool :=
  timeLeft && canForward && runFlag

/-- Rotation loop of `RotateToYaw`, astar_controller.cc line 2307. -/
def RotateToYawGuard (angleDiffBig canRotate runFlag : Bool) : Bool :=
  angleDiffBig && canRotate && runFlag

/-- Velocity shaping of the local-controller branch of FIX_CONTROLLING
(astar_controller.cc lines 1482-1490): the local planner's angular speed is
multiplied by `cmd_vel_ratio_`, by 0.75 when `fix_local_planner_error_cnt_ > 0`,
and then any magnitude strictly inside (0.08, 0.18) is replaced by ±0.18. -/
def ShapeAngularZ (z ratio : ℚ) (errPositive : Bool) : ℚ :=
  let z1 := z * ratio
  let z2 := if errPositive then z1 * (3/4) else z1
  if |z2| < 18/100 ∧ |z2| > 8/100 then (if z2 > 0 then 18/100 else -(18/100)) else z2

/-! ## Part 2 — lattice-based anytime global planner
(`search_based_global_planner.cc`)

The planner's own state machinery (`open_`, `inconsist_`, `eps_`,
`epsilon_satisfied_`, `iteration_`, `environment_iteration_`, the g/rhs/key
bookkeeping and the search loops) is embedded directly from the source.  The
`Environment` class (`GetSuccs`, `GetPreds`, `GetEnvEntry`,
`GetAffectedPredCells`, heuristic) lives outside `src/`; it is modelled from
the spec as an abstract successor/predecessor graph over (x, y, θ) cells with
an admissible heuristic (spec §4.1), passed in as a parameter `SEnv`. -/

/-- A lattice cell (x, y, θ). -/
abbrev Pos : Type := ℤ × ℤ × ℤ

/-- The planner's INFINITECOST sentinel (utils.h). -/
def INFCOST : ℕ := 1000000000

/-- One `EnvironmentEntry3D`.  Modelled from the spec (§3 "Lattice entry"):
fresh entries are lazily materialized with `g = rhs = INFINITECOST`, no
`best_next`, and iteration stamps that match no live search iteration
(`visited_iteration`/`closed_iteration` gate reuse across searches). -/
structure SEntry where
  g : ℕ := INFCOST
  rhs : ℕ := INFCOST
  bestNext : Option Pos := none
  visitedIter : ℕ := 0
  closedIter : ℕ := INFCOST
  key1 : ℕ := 0
  key2 : ℕ := 0
deriving DecidableEq, Repr

/-- Modelled from the spec (§4.1): the lattice environment as seen by the
search, with `preds` the primitive-reversal of `succs`, `heur` the admissible
heuristic grid, `inBounds` the `GetEnvEntry` existence check (dense arena,
NULL outside the map), and `affectedOffsets` the `GetAffectedPredCells`
offset list. -/
structure SEnv where
  succs : Pos → List (Pos × ℕ)
  preds : Pos → List (Pos × ℕ)
  heur : Pos → ℕ
  inBounds : Pos → Bool
  affectedOffsets : List Pos

/-- Planner configuration parameters read in `initialize`. -/
structure SConfig where
  initEps : ℕ := 3
  forceScratchLimit : ℕ := 500
  mapSize : ℕ := 400
  sizeDir : ℕ := 16
deriving DecidableEq, Repr

/-- Planner state: the entry arena plus the fields of
`SearchBasedGlobalPlanner`.  `epsSat = none` models
`epsilon_satisfied_ == INFINITECOST`. -/
structure SState where
  entries : Pos → SEntry
  openList : List Pos
  incons : List Pos
  eps : ℕ
  epsSat : Option ℕ
  iter : ℕ
  envIter : ℕ
  needReinit : Bool
  startPos : Pos
  goalPos : Pos
  firstMet : Pos
  broader : Bool
  goalList : List Pos

/-- Update the arena at one cell. -/
def setEntry (st : SState) (p : Pos) (e : SEntry) : SState :=
  { st with entries := Function.update st.entries p e }

/-- Stored key of an entry, as the lexicographically ordered pair. -/
def entryKey (st : SState) (p : Pos) : ℕ × ℕ :=
  ((st.entries p).key1, (st.entries p).key2)

/-- Strict lexicographic key order (the heap's comparison). -/
def keyLt (a b : ℕ × ℕ) : Bool :=
  decide (a.1 < b.1) || (decide (a.1 = b.1) && decide (a.2 < b.2))

/-- The `COMPUTEKEY` macro (search_based_global_planner.cc line 14);
`ComputeKey` itself is modelled from the spec (§3):
`key = (min(g, rhs) + ε·h, min(g, rhs))`.  ε decays in unit steps from
`initial_epsilon` and is clamped at 1 (search lines 495-498), so with the
integral default `initial_epsilon = 3` every reachable ε is integral; ε is
therefore carried as a natural number in this embedding. -/
def computeKey (env : SEnv) (st : SState) (p : Pos) : SState :=
  let e := st.entries p
  let m := min e.g e.rhs
  setEntry st p { e with key1 := m + st.eps * env.heur p, key2 := m }

/-- `open_.top()`: the entry with the smallest stored key (ties resolved to
the earliest pushed, a deterministic stand-in for the heap's tie order). -/
def heapTop (st : SState) : Option Pos :=
  st.openList.foldl
    (fun acc p => match acc with
      | none => some p
      | some q => if keyLt (entryKey st p) (entryKey st q) then some p else some q)
    none

/-- `SearchBasedGlobalPlanner::RecomputeRHSVal` (lines 186-200): scans the
successors of `entry`, lowering `rhs`/`best_next_entry` whenever a successor
visited in this environment iteration offers a cheaper value.  Note that the
stored `rhs` is the starting point of the minimization: the value can only
decrease. -/
def RecomputeRHSVal (env : SEnv) (st : SState) (p : Pos) : SState :=
  (env.succs p).foldl
    (fun st sc =>
      let e := st.entries p
      let se := st.entries sc.1
      if se.visitedIter ≠ st.envIter then st
      else if e.rhs > sc.2 + se.g then
        setEntry st p { e with rhs := sc.2 + se.g, bestNext := some sc.1 }
      else st)
    st

/-- `SearchBasedGlobalPlanner::UpdateSetMembership` (lines 202-222). -/
def UpdateSetMembership (env : SEnv) (st : SState) (p : Pos) : SState :=
  let e := st.entries p
  if e.rhs ≠ e.g then
    if e.closedIter ≠ st.iter then
      let st := computeKey env st p
      if p ∈ st.openList then st
      else { st with openList := st.openList ++ [p] }
    else
      if p ∈ st.incons then st else { st with incons := st.incons ++ [p] }
  else
    if p ∈ st.openList then { st with openList := st.openList.erase p } else st

/-- Lazy first-touch materialization of an entry in the current environment
iteration (the `visited_iteration != environment_iteration_` blocks at lines
232-234 and 252-254). -/
def lazyVisit (st : SState) (p : Pos) : SState :=
  let e := st.entries p
  if e.visitedIter ≠ st.envIter then
    setEntry st p { e with g := INFCOST, visitedIter := st.envIter }
  else st

/-- `SearchBasedGlobalPlanner::UpdateStateOfOverConsist` (lines 244-266). -/
def UpdateStateOfOverConsist (env : SEnv) (st : SState) (p : Pos) : SState :=
  (env.preds p).foldl
    (fun st pc =>
      let st := lazyVisit st pc.1
      let pe := st.entries pc.1
      let eg := (st.entries p).g
      if pe.rhs > pc.2 + eg then
        let st := setEntry st pc.1 { pe with rhs := pc.2 + eg, bestNext := some p }
        UpdateSetMembership env st pc.1
      else st)
    st

/-- `SearchBasedGlobalPlanner::UpdateStateOfUnderConsist` (lines 224-242). -/
def UpdateStateOfUnderConsist (env : SEnv) (st : SState) (p : Pos) : SState :=
  (env.preds p).foldl
    (fun st pc =>
      let st := lazyVisit st pc.1
      if (st.entries pc.1).bestNext = some p then
        UpdateSetMembership env (RecomputeRHSVal env st pc.1) pc.1
      else st)
    st

/-- The broader start list of `ComputeOrImprovePath` (lines 274-289): the
plus-shaped Δx/Δy offsets in loop order (pairs with Δx ≠ 0 and Δy ≠ 0 are
skipped). -/
def plusOffsets : List (ℤ × ℤ) :=
  [(-2, 0), (-1, 0), (0, -2), (0, -1), (0, 0), (0, 1), (0, 2), (1, 0), (2, 0)]

/-- `start_entry_list` (lines 273-289): the existing plus-shaped halo around
the start when `broader_start_and_goal_`, else the start entry alone. -/
def startList (env : SEnv) (st : SState) : List Pos :=
  if st.broader then
    plusOffsets.filterMap (fun d =>
      let p : Pos := (st.startPos.1 + d.1, st.startPos.2.1 + d.2, st.startPos.2.2)
      if env.inBounds p then some p else none)
  else [st.startPos]

/-- The termination scan at the top of the expansion loop (lines 295-301):
walk `start_entry_list` in order, recomputing the keys of the top entry and of
each scanned start, and stop at the first start whose key is not above the
top's and which is consistent. -/
def scanStarts (env : SEnv) : SState → Pos → List Pos → SState × Option Pos
  | st, _, [] => (st, none)
  | st, m, s :: rest =>
    let st := computeKey env st m
    let st := computeKey env st s
    if !keyLt (entryKey st m) (entryKey st s)
        && decide ((st.entries s).rhs = (st.entries s).g) then
      (st, some s)
    else scanStarts env st m rest

/-- The expansion loop of `ComputeOrImprovePath` (lines 292-322).  `fuel`
models the remaining allocated time; `fuel = 0` is the
`GetTimeInSeconds() - start_time_ >= allocated_time_` exit.  Returns the final
state and the last `min_entry` (the top of the heap at exit, when any). -/
def computeLoop (env : SEnv) (starts : List Pos) : ℕ → SState → SState × Option Pos
  | fuel, st =>
    match heapTop st with
    | none => (st, none)
    | some m =>
      match fuel with
      | 0 => (st, some m)
      | fuel + 1 =>
        let (st, hit) := scanStarts env st m starts
        match hit with
        | some s => ({ st with firstMet := s }, some m)
        | none =>
          let st := { st with openList := st.openList.erase m }
          let e := st.entries m
          let st :=
            if e.g > e.rhs then
              let st := setEntry st m { e with g := e.rhs, closedIter := st.iter }
              UpdateStateOfOverConsist env st m
            else
              let st := setEntry st m { e with g := INFCOST }
              let st := UpdateSetMembership env st m
              UpdateStateOfUnderConsist env st m
          computeLoop env starts fuel st

/-- `SearchBasedGlobalPlanner::ComputeOrImprovePath` (lines 268-341),
including the four-way exit classification at lines 327-340 (the second
branch reads the top's stored key and recomputes the key of
`first_met_entry_`). -/
def ComputeOrImprovePath (env : SEnv) (fuel : ℕ) (st : SState) : SState × Bool :=
  let starts := startList env st
  let st := { st with firstMet := st.startPos }
  let (st, lastMin) := computeLoop env starts fuel st
  let fm := st.entries st.firstMet
  if fm.rhs = INFCOST ∧ st.openList = [] then (st, false)
  else
    -- the second disjunct's COMPUTEKEY(first_met_entry_) only runs when the
    -- short-circuited `!open_.empty()` holds
    let st := if st.openList ≠ [] then computeKey env st st.firstMet else st
    let minBelowOrInconsist : Bool :=
      (match lastMin with
       | some m => keyLt (entryKey st m) (entryKey st st.firstMet)
       | none => false) || decide (fm.rhs > fm.g)
    if st.openList ≠ [] ∧ minBelowOrInconsist = true then (st, false)
    else if fm.rhs = INFCOST ∧ st.openList ≠ [] then (st, false)
    else (st, true)

/-- The goal-halo offsets of `ReInitializeSearchEnvironment` (lines 450-452)
in loop order: Δx, Δy ∈ {-3..3}, Δθ ∈ {-1, 0, 1}. -/
def haloOffsets : List Pos :=
  ([-3, -2, -1, 0, 1, 2, 3] : List ℤ).flatMap (fun i =>
    ([-3, -2, -1, 0, 1, 2, 3] : List ℤ).flatMap (fun j =>
      ([-1, 0, 1] : List ℤ).map (fun k => ((i, j, k) : Pos))))

/-- The halo cells around `gp` that exist in the environment, in seeding
order. -/
def haloList (env : SEnv) (gp : Pos) : List Pos :=
  haloOffsets.filterMap (fun d =>
    let p : Pos := (gp.1 + d.1, gp.2.1 + d.2.1, gp.2.2 + d.2.2)
    if env.inBounds p then some p else none)

/-- Seed one goal(-halo) entry (lines 461-469): `rhs := 0`, stamp
`visited_iteration`, point `best_next_entry` at the goal for cells displaced
in x or y, compute the key and push. -/
def seedGoalEntry (env : SEnv) (gp : Pos) (st : SState) (p : Pos) : SState :=
  let e := st.entries p
  let e := { e with rhs := 0, visitedIter := st.envIter,
                    bestNext := if p.1 ≠ gp.1 ∨ p.2.1 ≠ gp.2.1 then some gp else e.bestNext }
  let st := setEntry st p e
  let st := computeKey env st p
  { st with openList := st.openList ++ [p], goalList := st.goalList ++ [p] }

/-- `SearchBasedGlobalPlanner::ReInitializeSearchEnvironment` (lines 435-481).
`env_->ReInitialize()` is modelled from the spec as doing no per-entry work:
whole-arena invalidation is by the `environment_iteration_` counter (spec §3
"Lifecycle", §9 "Lazy entries"), so entries keep their stored `g` values. -/
def ReInitializeSearchEnv (env : SEnv) (cfg : SConfig) (st : SState) : SState :=
  let st := { st with openList := [], incons := [], eps := cfg.initEps, epsSat := none,
                      envIter := st.envIter + 1, goalList := [] }
  let st :=
    if st.broader then
      (haloList env st.goalPos).foldl (seedGoalEntry env st.goalPos) st
    else
      let e := st.entries st.goalPos
      let st := setEntry st st.goalPos { e with rhs := 0, visitedIter := st.envIter }
      let st := computeKey env st st.goalPos
      { st with openList := st.openList ++ [st.goalPos] }
  { st with needReinit := false }

/-- `GetEntryPath`'s chase of `best_next_entry` pointers (lines 343-375).
A `break` with the goal unreached falls through to the final clear (line 373);
the underconsistent case (lines 361-364) returns the partial path unchanged.
`fuel` bounds the chase (the C++ loop has no cycle guard). -/
def getEntryPathAux (st : SState) : ℕ → Pos → List Pos → List Pos
  | 0, e, acc => if e = st.goalPos then acc else []
  | fuel + 1, e, acc =>
    if e = st.goalPos then acc
    else
      let en := st.entries e
      match en.bestNext with
      | none => []
      | some nx =>
        if en.rhs = INFCOST then []
        else if en.g < en.rhs then acc
        else getEntryPathAux st fuel nx (acc ++ [nx])

/-- `SearchBasedGlobalPlanner::GetEntryPath` (lines 343-375). -/
def GetEntryPath (st : SState) (fuel : ℕ) : List Pos :=
  getEntryPathAux st fuel st.firstMet [st.firstMet]

/-- Cost of one primitive transition as taken by `GetPointPathFromEntryPath`
(lines 393-416): the cheapest action among the successors of `src` that land
on `tgt`; `none` when no successor matches. -/
def stepCost (env : SEnv) (src tgt : Pos) : Option ℕ :=
  ((env.succs src).filter (fun sc => decide (sc.1 = tgt))).foldl
    (fun acc sc => match acc with
      | none => some sc.2
      | some c => some (min c sc.2))
    none

/-- Primitive-expanded cost of an entry path: the sum of the per-transition
costs chosen by `GetPointPathFromEntryPath`; `none` if some transition has no
matching successor. -/
def chainCost (env : SEnv) : List Pos → Option ℕ
  | [] => some 0
  | [_] => some 0
  | a :: b :: rest =>
    match stepCost env a b, chainCost env (b :: rest) with
    | some c, some r => some (c + r)
    | _, _ => none

/-- `epsilon_satisfied_` as an extended value for the `> 1.0` loop guard. -/
def epsSatAbove1 (st : SState) : Bool :=
  match st.epsSat with
  | none => true
  | some q => decide (q > 1)

/-- One-result record for `search`. -/
structure SearchResult where
  success : Bool
  entryPath : List Pos
  st : SState

/-- The anytime loop of `search` (lines 494-524).  `ofuel` bounds the number
of outer passes and `ifuel` is the per-pass expansion budget (real time is
fuel in this embedding).  Each pass: decrement ε and open a new iteration when
`epsilon_satisfied_` caught up with `eps_` (the `fabs < 1e-6` check is exact
equality here), move INCONS into OPEN, recompute all keys, run
`ComputeOrImprovePath`, record `epsilon_satisfied_` on success, and stop once
the first-met entry's `rhs` is infinite. -/
def searchLoop (env : SEnv) (ifuel : ℕ) : ℕ → SState → SState
  | 0, st => st
  | ofuel + 1, st =>
    if epsSatAbove1 st then
      let st :=
        if st.epsSat = some st.eps then
          let e := if st.eps > 1 then st.eps - 1 else st.eps
          let e := if e < 1 then 1 else e
          { st with eps := e, iter := st.iter + 1 }
        else st
      let st := { st with openList := st.openList ++ st.incons, incons := [] }
      let st := st.openList.foldl (computeKey env) st
      let (st, ok) := ComputeOrImprovePath env ifuel st
      let st := if ok then { st with epsSat := some st.eps } else st
      if (st.entries st.firstMet).rhs = INFCOST then st
      else searchLoop env ifuel ofuel st
    else st

/-- `SearchBasedGlobalPlanner::search` (lines 483-536): reinitialize if
pending, run the anytime loop, and either report failure — leaving the output
point path exactly as the caller passed it in (`pointPathIn`, an out-parameter
the failure path never touches) — or extract the entry path. -/
def search (env : SEnv) (cfg : SConfig) (ifuel ofuel pfuel : ℕ) (st : SState)
    (pointPathIn : List Pos) : SearchResult :=
  let st := if st.needReinit then ReInitializeSearchEnv env cfg st else st
  let st := searchLoop env ifuel ofuel st
  if (st.entries st.firstMet).rhs = INFCOST ∨ st.epsSat = none then
    { success := false, entryPath := pointPathIn, st := st }
  else
    { success := true, entryPath := GetEntryPath st pfuel, st := st }

/-- Deduplicating collection of affected entries in `CostsChanged`
(lines 551-569): for each changed cell, each `GetAffectedPredCells` offset is
translated by the cell; existing entries are collected once (the `exist`
bitmap). -/
def affectedEntries (env : SEnv) (cells : List (ℤ × ℤ)) : List Pos :=
  (cells.flatMap (fun c =>
    env.affectedOffsets.filterMap (fun o =>
      let p : Pos := (o.1 + c.1, o.2.1 + c.2, o.2.2)
      if env.inBounds p then some p else none))).foldl
    (fun acc p => if p ∈ acc then acc else acc ++ [p]) []

/-- `SearchBasedGlobalPlanner::CostsChanged` (lines 538-594): early return
when a reinitialization is already pending or no compute iteration has run;
otherwise collect affected entries, request a from-scratch reinitialization
past either threshold, repair the `rhs` of entries visited in this
environment iteration, and reset ε bookkeeping. -/
def CostsChanged (env : SEnv) (cfg : SConfig) (st : SState) (cells : List (ℤ × ℤ)) : SState :=
  if st.needReinit ∨ st.iter = 0 then st
  else
    let affected := affectedEntries env cells
    if affected = [] then st
    else
      let st :=
        if affected.length > cfg.mapSize * cfg.mapSize * cfg.sizeDir / 10 ∨
            affected.length > cfg.forceScratchLimit then
          { st with needReinit := true }
        else st
      let st := affected.foldl
        (fun s p =>
          if (s.entries p).visitedIter = s.envIter then
            UpdateSetMembership env (RecomputeRHSVal env s p) p
          else s)
        st
      { st with eps := cfg.initEps, epsSat := none }

/-- The slice of `makePlan` (lines 608-710) that decides reinitialization and
repairs costs before calling `search`: a changed start entry resets ε
bookkeeping (lines 668-672), a changed goal entry forces reinitialization
(lines 673-677), and a non-empty cost diff goes through `CostsChanged`
(lines 702-704).  Returns the state handed to `search`. -/
def makePlanPrepare (env : SEnv) (cfg : SConfig) (st : SState)
    (startChanged goalChanged : Bool) (cells : List (ℤ × ℤ)) : SState :=
  let st := if startChanged then { st with eps := cfg.initEps, epsSat := none } else st
  let st := if goalChanged then { st with needReinit := true } else st
  if cells ≠ [] then CostsChanged env cfg st cells else st

/-- `makePlan` modulo geometry: prepare, then search. -/
def makePlanModel (env : SEnv) (cfg : SConfig) (st : SState)
    (startChanged goalChanged : Bool) (cells : List (ℤ × ℤ)) (ifuel ofuel pfuel : ℕ) :
    SearchResult :=
  search env cfg ifuel ofuel pfuel (makePlanPrepare env cfg st startChanged goalChanged cells) []

/-! ## Part 3 — concrete environments for the evaluation theorems -/

/-- Initial planner state right after `initialize` (lines 139-154:
`iteration_ = 0`, `environment_iteration_ = 0`,
`need_to_reinitialize_environment_ = true`) with the given start/goal. -/
def initState (s g : Pos) (broader : Bool) : SState :=
  { entries := fun _ => {}
    openList := []
    incons := []
    eps := 3
    epsSat := none
    iter := 0
    envIter := 0
    needReinit := true
    startPos := s
    goalPos := g
    firstMet := s
    broader := broader
    goalList := [] }

/-- Cost-increase scenario, first call: cells S=(0,0,0), B=(1,0,0),
G=(2,0,0); primitives S→G (cost 10), S→B (5), B→G (5); flat heuristic. -/
def envA1 : SEnv :=
  { succs := fun p =>
      if p = ((0, 0, 0) : Pos) then [(((2, 0, 0) : Pos), 10), (((1, 0, 0) : Pos), 5)]
      else if p = ((1, 0, 0) : Pos) then [(((2, 0, 0) : Pos), 5)]
      else []
    preds := fun p =>
      if p = ((2, 0, 0) : Pos) then [(((0, 0, 0) : Pos), 10), (((1, 0, 0) : Pos), 5)]
      else if p = ((1, 0, 0) : Pos) then [(((0, 0, 0) : Pos), 5)]
      else []
    heur := fun _ => 0
    inBounds := fun p =>
      p ∈ ([((0, 0, 0) : Pos), ((1, 0, 0) : Pos), ((2, 0, 0) : Pos)] : List Pos)
    affectedOffsets := [((-1, 1, 0) : Pos)] }

/-- Cost-increase scenario, second call: a changed cell on the S→G primitive
raised its cost to 2000; the S→B→G alternative (total cost 10) is untouched. -/
def envA2 : SEnv :=
  { envA1 with
    succs := fun p =>
      if p = ((0, 0, 0) : Pos) then [(((2, 0, 0) : Pos), 2000), (((1, 0, 0) : Pos), 5)]
      else if p = ((1, 0, 0) : Pos) then [(((2, 0, 0) : Pos), 5)]
      else []
    preds := fun p =>
      if p = ((2, 0, 0) : Pos) then [(((0, 0, 0) : Pos), 2000), (((1, 0, 0) : Pos), 5)]
      else if p = ((1, 0, 0) : Pos) then [(((0, 0, 0) : Pos), 5)]
      else [] }

/-- Default configuration (allocated_time 4.0, initial_epsilon 3.0,
force_scratch_limit 500, map_size 400). -/
def cfgA : SConfig := {}

/-- First `makePlan` of the cost-increase scenario. -/
def runA1 : SearchResult :=
  makePlanModel envA1 cfgA (initState ((0, 0, 0) : Pos) ((2, 0, 0) : Pos) false)
    false false [] 30 10 10

/-- Second `makePlan`: same start and goal, the cost diff touches cell (1,-1)
whose affected-predecessor offset reaches S. -/
def runA2 : SearchResult :=
  makePlanModel envA2 cfgA runA1.st false false [((1 : ℤ), (-1 : ℤ))] 30 10 10

/-- Stale-g scenario: goal G=(0,0,0) with halo neighbour H=(1,0,0), start
S=(10,0,0) beyond the halo, one primitive S→G of cost 10; cell (20,20,0)
exists to absorb a later cost change. -/
def envB : SEnv :=
  { succs := fun p =>
      if p = ((10, 0, 0) : Pos) then [(((0, 0, 0) : Pos), 10)] else []
    preds := fun p =>
      if p = ((0, 0, 0) : Pos) then [(((10, 0, 0) : Pos), 10)] else []
    heur := fun _ => 0
    inBounds := fun p =>
      p ∈ ([((0, 0, 0) : Pos), ((1, 0, 0) : Pos), ((10, 0, 0) : Pos),
            ((20, 20, 0) : Pos)] : List Pos)
    affectedOffsets := [((0, 0, 0) : Pos)] }

/-- Configuration with `force_scratch_limit` 0: any affected entry forces a
from-scratch reinitialization. -/
def cfgB : SConfig := { forceScratchLimit := 0 }

/-- First `makePlan` of the stale-g scenario (broader_start_and_goal set). -/
def runB1 : SearchResult :=
  makePlanModel envB cfgB (initState ((10, 0, 0) : Pos) ((0, 0, 0) : Pos) true)
    false false [] 30 10 10

/-- State handed to the second `search` after a cost diff at cell (20,20)
crossed `force_scratch_limit`, immediately after
`ReInitializeSearchEnvironment` ran. -/
def stB2 : SState :=
  ReInitializeSearchEnv envB cfgB
    (makePlanPrepare envB cfgB runB1.st false false [((20 : ℤ), (20 : ℤ))])

/-- Unreachable-goal scenario: the goal G=(0,0,0) has no predecessors, so the
first search fails outright and `iteration_` stays 0; cell (7,7,0) exists to
absorb a later cost change. -/
def envC : SEnv :=
  { succs := fun _ => []
    preds := fun _ => []
    heur := fun _ => 0
    inBounds := fun p =>
      p ∈ ([((0, 0, 0) : Pos), ((5, 0, 0) : Pos), ((7, 7, 0) : Pos)] : List Pos)
    affectedOffsets := [((2, 2, 0) : Pos)] }

/-- First `makePlan` of the unreachable-goal scenario: fails. -/
def runC1 : SearchResult :=
  makePlanModel envC cfgB (initState ((5, 0, 0) : Pos) ((0, 0, 0) : Pos) false)
    false false [] 30 10 10

/-- State handed to the second `search` of the unreachable-goal scenario: the
cost diff at cell (5,5) affects entry (7,7,0), exceeding
`force_scratch_limit = 0`, yet `CostsChanged` returns at its
`iteration_ == 0` guard without requesting reinitialization. -/
def stC2 : SState :=
  makePlanPrepare envC cfgB runC1.st false false [((5 : ℤ), (5 : ℤ))]

/-! ## Part 4 — helper lemmas -/

/-- A fold whose step never touches `needReinit` preserves it. -/
theorem foldl_needReinit {α : Type} (f : SState → α → SState)
    (hf : ∀ s a, (f s a).needReinit = s.needReinit) :
    ∀ (l : List α) (st : SState), (l.foldl f st).needReinit = st.needReinit := by
  intro l
  induction l with
  | nil => intro st; rfl
  | cons a t ih => intro st; rw [List.foldl_cons, ih, hf]

/-- `RecomputeRHSVal` never touches `needReinit`. -/
theorem RecomputeRHSVal_needReinit (env : SEnv) (st : SState) (p : Pos) :
    (RecomputeRHSVal env st p).needReinit = st.needReinit := by
  unfold RecomputeRHSVal
  apply foldl_needReinit
  intro s a
  dsimp only
  split
  · rfl
  · split <;> rfl

/-- `UpdateSetMembership` never touches `needReinit`. -/
theorem UpdateSetMembership_needReinit (env : SEnv) (st : SState) (p : Pos) :
    (UpdateSetMembership env st p).needReinit = st.needReinit := by
  unfold UpdateSetMembership
  dsimp only
  split
  · split
    · split <;> rfl
    · split <;> rfl
  · split <;> rfl

/-- The repair fold of `CostsChanged` never touches `needReinit`. -/
theorem repairFold_needReinit (env : SEnv) (l : List Pos) (st : SState) :
    (l.foldl
      (fun s p =>
        if (s.entries p).visitedIter = s.envIter
        then UpdateSetMembership env (RecomputeRHSVal env s p) p else s)
      st).needReinit = st.needReinit := by
  apply foldl_needReinit
  intro s a
  dsimp only
  split
  · rw [UpdateSetMembership_needReinit, RecomputeRHSVal_needReinit]
  · rfl

/-- Seeding one goal entry appends exactly that entry to the open list. -/
theorem seedGoalEntry_openList (env : SEnv) (gp : Pos) (st : SState) (p : Pos) :
    (seedGoalEntry env gp st p).openList = st.openList ++ [p] := rfl

/-- Seeding one goal entry sets its `rhs` to 0. -/
theorem seedGoalEntry_rhs_self (env : SEnv) (gp : Pos) (st : SState) (p : Pos) :
    ((seedGoalEntry env gp st p).entries p).rhs = 0 := by
  simp [seedGoalEntry, computeKey, setEntry]

/-- Seeding one goal entry leaves other entries alone. -/
theorem seedGoalEntry_entries_other (env : SEnv) (gp : Pos) (st : SState) (p q : Pos)
    (h : q ≠ p) :
    (seedGoalEntry env gp st p).entries q = st.entries q := by
  simp [seedGoalEntry, computeKey, setEntry, Function.update_noteq h]

/-- The seeding fold of `ReInitializeSearchEnv` pushes exactly the seeded
cells, gives each of them `rhs = 0`, and leaves all other entries alone. -/
theorem seedFold_spec (env : SEnv) (gp : Pos) :
    ∀ (l : List Pos) (st : SState), l.Nodup →
      (l.foldl (seedGoalEntry env gp) st).openList = st.openList ++ l ∧
      (∀ p ∈ l, ((l.foldl (seedGoalEntry env gp) st).entries p).rhs = 0) ∧
      (∀ q, q ∉ l → (l.foldl (seedGoalEntry env gp) st).entries q = st.entries q) := by
  intro l
  induction l with
  | nil => intro st _; exact ⟨by simp, by simp, fun q _ => rfl⟩
  | cons a t ih =>
    intro st hnd
    rw [List.nodup_cons] at hnd
    obtain ⟨ha, hndt⟩ := hnd
    obtain ⟨ih1, ih2, ih3⟩ := ih (seedGoalEntry env gp st a) hndt
    refine ⟨?_, ?_, ?_⟩
    · rw [List.foldl_cons, ih1, seedGoalEntry_openList]
      simp
    · intro p hp
      rcases List.mem_cons.mp hp with rfl | hp
      · rw [List.foldl_cons, ih3 p ha, seedGoalEntry_rhs_self]
      · rw [List.foldl_cons]; exact ih2 p hp
    · intro q hq
      rw [List.mem_cons, not_or] at hq
      rw [List.foldl_cons, ih3 q hq.2, seedGoalEntry_entries_other env gp st a q hq.1]

/-- The halo offset list has no duplicates. -/
theorem haloOffsets_nodup : haloOffsets.Nodup := by decide

/-- The seeded halo cells are pairwise distinct. -/
theorem haloList_nodup (env : SEnv) (gp : Pos) : (haloList env gp).Nodup := by
  apply List.Nodup.filterMap _ haloOffsets_nodup
  intro a a' b hb hb'
  dsimp only at hb hb'
  split at hb
  · simp only [Option.mem_def, Option.some_inj] at hb
    split at hb'
    · simp only [Option.mem_def, Option.some_inj] at hb'
      have hab := hb.trans hb'.symm
      obtain ⟨x, y, z⟩ := a
      obtain ⟨x', y', z'⟩ := a'
      simp only [Prod.mk.injEq] at hab ⊢
      omega
    · simp at hb'
  · simp at hb

/-! ## Part 5 — the claims -/

/-- C1: the claim states that whenever `SearchBasedGlobalPlanner::search`
returns success, the primitive-expanded cost of the path read off the
`best_next_entry` pointers is at most ε · C*(start, goal).  The code violates
this: `RecomputeRHSVal` (line 194) starts its minimization from the stored
`rhs`, so after a cost increase the stale `rhs`/`best_next_entry` survive
`CostsChanged`.  Concretely (scenario A): a first search plans S→G at cost 10
while S→B→G also costs 10; the S→G primitive then rises to 2000; the repair
leaves `best_next_entry(S) = G`, and the second search reports success with a
returned path of cost 2000, though C* ≤ 10 via S→B→G and ε = 3, so
ε · C* ≤ 30 < 2000. -/
theorem c1_suboptimality_violated :
    runA1.success = true ∧
    runA2.success = true ∧
    runA2.entryPath = [((0, 0, 0) : Pos), ((2, 0, 0) : Pos)] ∧
    chainCost envA2 runA2.entryPath = some 2000 ∧
    chainCost envA2 [((0, 0, 0) : Pos), ((1, 0, 0) : Pos), ((2, 0, 0) : Pos)] = some 10 ∧
    cfgA.initEps = 3 ∧
    ¬ ((2000 : ℕ) ≤ 3 * 10) := by
  refine ⟨by decide, by decide, by decide, by decide, by decide, by decide, by decide⟩

/-- C2: `search` reports failure when the open heap empties with the
first-met start entry still at `rhs = INFINITECOST`, and when the time budget
runs out with no solution ever recorded (`epsilon_satisfied_` still infinite);
and a failing `search` leaves the output point path exactly as the caller
passed it in (empty), so no partial plan reaches the controller. -/
theorem c2_failure_semantics (env : SEnv) (cfg : SConfig) (ifuel ofuel pfuel : ℕ)
    (st : SState) (pp : List Pos) :
    (((search env cfg ifuel ofuel pfuel st pp).st.entries
          (search env cfg ifuel ofuel pfuel st pp).st.firstMet).rhs = INFCOST ∧
        (search env cfg ifuel ofuel pfuel st pp).st.openList = [] →
      (search env cfg ifuel ofuel pfuel st pp).success = false) ∧
    ((search env cfg ifuel ofuel pfuel st pp).st.epsSat = none →
      (search env cfg ifuel ofuel pfuel st pp).success = false) ∧
    ((search env cfg ifuel ofuel pfuel st pp).success = false →
      (search env cfg ifuel ofuel pfuel st pp).entryPath = pp) := by
  simp only [search]
  split <;>
  · split
    next h =>
      exact ⟨fun _ => rfl, fun _ => rfl, fun _ => rfl⟩
    next h =>
      push_neg at h
      exact ⟨fun hc => absurd hc.1 h.1, fun hc => absurd hc h.2, fun hc => by simp at hc⟩

/-- Witness for C2 at a concrete unreachable goal (scenario C): the first
search fails with an empty heap and infinite `rhs`, and hands back the empty
point path. -/
theorem c2_failure_semantics_witness :
    (search envC cfgB 30 10 10
        (initState ((5, 0, 0) : Pos) ((0, 0, 0) : Pos) false) []).success = false ∧
    (search envC cfgB 30 10 10
        (initState ((5, 0, 0) : Pos) ((0, 0, 0) : Pos) false) []).entryPath = [] := by
  have h := c2_failure_semantics envC cfgB 30 10 10
    (initState ((5, 0, 0) : Pos) ((0, 0, 0) : Pos) false) []
  exact ⟨h.1 (by decide), h.2.2 (h.1 (by decide))⟩

/-- C3: the claim states that after each listed search operation — in
particular right after reinitialization — an entry is in `open` iff
`g ≠ rhs` and `closed_iteration ≠` the current iteration.
`ReInitializeSearchEnvironment` seeds `rhs = 0` and stamps
`visited_iteration` without clearing the stored `g` (lines 461-469 bypass the
iteration-counter invalidation), so a halo entry expanded by an earlier
search (g = 0) re-enters `open` already consistent.  Concretely (scenario B):
after a successful broader search, a cost change past `force_scratch_limit`
triggers reinitialization, and the halo entry H = (1,0,0) sits in `open` with
`g = rhs = 0`, falsifying the membership invariant. -/
theorem c3_open_invariant_violated :
    runB1.success = true ∧
    ((1, 0, 0) : Pos) ∈ stB2.openList ∧
    (stB2.entries ((1, 0, 0) : Pos)).g = 0 ∧
    (stB2.entries ((1, 0, 0) : Pos)).rhs = 0 ∧
    ¬ (((1, 0, 0) : Pos) ∈ stB2.openList ↔
        ((stB2.entries ((1, 0, 0) : Pos)).g ≠ (stB2.entries ((1, 0, 0) : Pos)).rhs ∧
         (stB2.entries ((1, 0, 0) : Pos)).closedIter ≠ stB2.iter)) := by
  refine ⟨by decide, by decide, by decide, by decide, by decide⟩

/-- C4 counterexample: the claim's "exactly when" fails at the
`iteration_ == 0` guard of `CostsChanged` (line 539).  In scenario C the
first search fails outright, so `iteration_` is still 0 while
`need_to_reinitialize_environment_` was already consumed; a following cost
change whose affected entries exceed `force_scratch_limit` (= 0 here) is then
ignored: no reinitialization is requested. -/
theorem c4_reinit_trigger_counterexample :
    runC1.st.iter = 0 ∧
    runC1.st.needReinit = false ∧
    (affectedEntries envC [((5 : ℤ), (5 : ℤ))]).length > cfgB.forceScratchLimit ∧
    stC2.needReinit = false := by
  refine ⟨by decide, by decide, by decide, by decide⟩

/-- C4 (amended): provided at least one compute iteration has run
(`iteration_ ≠ 0`) and no reinitialization is already pending, the search
reinitializes from scratch exactly when the goal entry changed or the number
of affected entries exceeds `force_scratch_limit` or 10% of the grid; and on
reinitialization with `broader_start_and_goal` set, exactly the existing
entries of the 7×7×3 halo around the goal are seeded with `rhs = 0` and
pushed into open, otherwise only the goal entry is. -/
theorem c4_reinit_trigger_and_halo_amended (env : SEnv) (cfg : SConfig) (st : SState)
    (sc gc : Bool) (cells : List (ℤ × ℤ))
    (h1 : st.needReinit = false) (h2 : st.iter ≠ 0) :
    ((makePlanPrepare env cfg st sc gc cells).needReinit = true ↔
      (gc = true ∨
        (affectedEntries env cells).length > cfg.mapSize * cfg.mapSize * cfg.sizeDir / 10 ∨
        (affectedEntries env cells).length > cfg.forceScratchLimit)) ∧
    (st.broader = true →
      (ReInitializeSearchEnv env cfg st).openList = haloList env st.goalPos ∧
      ∀ p ∈ haloList env st.goalPos, ((ReInitializeSearchEnv env cfg st).entries p).rhs = 0) ∧
    (st.broader = false →
      (ReInitializeSearchEnv env cfg st).openList = [st.goalPos] ∧
      ((ReInitializeSearchEnv env cfg st).entries st.goalPos).rhs = 0) := by
  have hpend : ∀ s : SState, s.needReinit = true →
      (CostsChanged env cfg s cells).needReinit = true := by
    intro s hs
    unfold CostsChanged
    rw [if_pos (Or.inl hs)]
    exact hs
  have hmain : ∀ s : SState, s.needReinit = false → s.iter ≠ 0 →
      ((CostsChanged env cfg s cells).needReinit = true ↔
        ((affectedEntries env cells).length > cfg.mapSize * cfg.mapSize * cfg.sizeDir / 10 ∨
         (affectedEntries env cells).length > cfg.forceScratchLimit)) := by
    intro s hs hi
    unfold CostsChanged
    rw [if_neg (by simp [hs, hi])]
    dsimp only
    by_cases haff : affectedEntries env cells = []
    · rw [if_pos haff, haff, hs]
      simp
    · rw [if_neg haff]
      dsimp only
      rw [repairFold_needReinit]
      split_ifs with hthr
      · simp [hthr]
      · rw [hs]
        simp only [Bool.false_eq_true, false_iff]
        exact hthr
  refine ⟨?_, ?_, ?_⟩
  · -- reinitialization trigger
    unfold makePlanPrepare
    set st1 := if sc = true then { st with eps := cfg.initEps, epsSat := none } else st with hst1
    have h1' : st1.needReinit = false := by rw [hst1]; split <;> exact h1
    have h2' : st1.iter ≠ 0 := by rw [hst1]; split <;> exact h2
    rcases gc with _ | _
    · -- goal unchanged
      by_cases hcells : cells = []
      · subst hcells
        rw [if_neg (by simp), if_neg (by simp), h1']
        simp [affectedEntries]
      · rw [if_pos hcells, if_neg (by simp), hmain st1 h1' h2']
        simp
    · -- goal changed: the pending flag short-circuits CostsChanged
      by_cases hcells : cells = []
      · subst hcells
        rw [if_neg (by simp), if_pos rfl]
        simp
      · rw [if_pos hcells, if_pos rfl, hpend _ rfl]
        simp
  · -- broader halo seeding
    intro hb
    unfold ReInitializeSearchEnv
    dsimp only
    simp only [hb, if_true]
    have hspec := seedFold_spec env st.goalPos (haloList env st.goalPos)
      { st with openList := [], incons := [], eps := cfg.initEps, epsSat := none,
                envIter := st.envIter + 1, goalList := [], broader := true }
      (haloList_nodup env st.goalPos)
    exact ⟨by simpa using hspec.1, fun p hp => by simpa using hspec.2.1 p hp⟩
  · -- goal-only seeding
    intro hb
    unfold ReInitializeSearchEnv
    dsimp only
    simp only [hb, Bool.false_eq_true, if_false]
    refine ⟨by simp [setEntry, computeKey], ?_⟩
    simp [setEntry, computeKey]

/-- Witness for C4: in scenario B (a warm state with `iteration_ = 2`), a
changed goal triggers reinitialization, and the broader reinitialization
pushes exactly the existing halo entries. -/
theorem c4_reinit_trigger_and_halo_amended_witness :
    (makePlanPrepare envB cfgB runB1.st false true []).needReinit = true ∧
    (ReInitializeSearchEnv envB cfgB runB1.st).openList = haloList envB runB1.st.goalPos := by
  have h := c4_reinit_trigger_and_halo_amended envB cfgB runB1.st false true []
    (by decide) (by decide)
  exact ⟨h.1.mpr (Or.inl rfl), (h.2.1 (by decide)).1⟩

/-- C5: planner selection by start-goal distance in `MakePlan` /
`PlanThread`: d ≤ 0.25 m gives the straight two-point plan; 0.25 < d ≤ 2.0
with the previous attempt not Bézier gives the Bézier planner, with an
immediate second `MakePlan` on Bézier failure; 2.0 < d ≤ sbpl_max_distance
gives the direct lattice (sbpl) search; d beyond sbpl_max_distance (read with
the configured ordering 2 ≤ sbpl_max_distance) gives the coarse 2D A* whose
successful output is sampled into the fix-path. -/
theorem c5_planner_dispatch (st : MPState) (d sbplMax : ℚ) (bOk sOk aOk : Bool) :
    (d ≤ 1/4 →
      PlanThreadOnce st d sbplMax bOk sOk aOk = [MakePlan st d sbplMax bOk sOk aOk] ∧
      (MakePlan st d sbplMax bOk sOk aOk).choice = GPlanner.direct2pt ∧
      (MakePlan st d sbplMax bOk sOk aOk).twoPointPlan = true) ∧
    (1/4 < d → d ≤ 2 → st.lastUsingBezier = false →
      ((PlanThreadOnce st d sbplMax bOk sOk aOk).head?.map MPResult.choice =
        some GPlanner.bezier) ∧
      (bOk = false → (PlanThreadOnce st d sbplMax bOk sOk aOk).length = 2)) ∧
    (2 < d → d ≤ sbplMax →
      (PlanThreadOnce st d sbplMax bOk sOk aOk).map MPResult.choice = [GPlanner.sbpl]) ∧
    (2 ≤ sbplMax → sbplMax < d →
      (PlanThreadOnce st d sbplMax bOk sOk aOk).map MPResult.choice = [GPlanner.astar2d] ∧
      (aOk = true → (MakePlan st d sbplMax bOk sOk aOk).sampledFixPath = true)) := by
  refine ⟨?_, ?_, ?_, ?_⟩
  · intro hd
    simp only [PlanThreadOnce, MakePlan, if_pos hd]
    simp
  · intro hd1 hd2 hlb
    have hn1 : ¬ d ≤ 1/4 := not_le.mpr hd1
    simp only [PlanThreadOnce, MakePlan, if_neg hn1, hlb, Bool.not_false, Bool.true_and,
      decide_eq_true_eq, if_pos hd2]
    rcases bOk with _ | _ <;> simp
  · intro hd1 hd2
    have hn1 : ¬ d ≤ 1/4 := not_le.mpr (by linarith)
    have hn2 : ¬ d ≤ 2 := not_le.mpr hd1
    simp only [PlanThreadOnce, MakePlan, if_neg hn1, decide_eq_false hn2, Bool.and_false,
      Bool.false_eq_true, if_false, if_pos hd2]
    simp
  · intro hmax hd1
    have hd2 : 2 < d := lt_of_le_of_lt hmax hd1
    have hn1 : ¬ d ≤ 1/4 := not_le.mpr (by linarith)
    have hn2 : ¬ d ≤ 2 := not_le.mpr hd2
    have hn3 : ¬ d ≤ sbplMax := not_le.mpr hd1
    simp only [PlanThreadOnce, MakePlan, if_neg hn1, decide_eq_false hn2, Bool.and_false,
      Bool.false_eq_true, if_false, if_neg hn3]
    simp

/-- Witness for C5, exercising all four distance regimes (sbpl_max = 5 m):
0.2 m is a direct two-point plan, 1 m heads to Bézier and re-plans once on
failure, 3 m is a direct lattice search, 9 m is the sampled coarse A*. -/
theorem c5_planner_dispatch_witness :
    (MakePlan ⟨false, false, false⟩ (1/5) 5 true true true).choice = GPlanner.direct2pt ∧
    (PlanThreadOnce ⟨false, false, false⟩ 1 5 false true true).length = 2 ∧
    (PlanThreadOnce ⟨false, false, false⟩ 3 5 true true true).map MPResult.choice =
      [GPlanner.sbpl] ∧
    (PlanThreadOnce ⟨false, false, false⟩ 9 5 true true true).map MPResult.choice =
      [GPlanner.astar2d] := by
  refine ⟨?_, ?_, ?_, ?_⟩
  · exact ((c5_planner_dispatch ⟨false, false, false⟩ (1/5) 5 true true true).1
      (by norm_num)).2.1
  · exact ((c5_planner_dispatch ⟨false, false, false⟩ 1 5 false true true).2.1
      (by norm_num) (by norm_num) rfl).2 rfl
  · exact (c5_planner_dispatch ⟨false, false, false⟩ 3 5 true true true).2.2.1
      (by norm_num) (by norm_num)
  · exact ((c5_planner_dispatch ⟨false, false, false⟩ 9 5 true true true).2.2.2
      (by norm_num) (by norm_num)).1

/-- The wait loop resumes exactly when at least three samples cleared 1.0 m;
stated over the running counter of `StopWaitResumes.go`. -/
theorem stopWait_go_iff (samples : List ℚ) :
    ∀ c : ℕ, c ≤ 2 → (StopWaitResumes.go samples c = true ↔ 3 ≤ c + clearCount samples) := by
  induction samples with
  | nil =>
    intro c hc
    simp only [StopWaitResumes.go, clearCount, List.filter_nil, List.length_nil]
    simp
    omega
  | cons a rest ih =>
    intro c hc
    by_cases ha : a > 1
    · rw [show StopWaitResumes.go (a :: rest) c =
          (if c + 1 > 2 then true else StopWaitResumes.go rest (c + 1)) from by
            simp [StopWaitResumes.go, ha]]
      have hcc : clearCount (a :: rest) = clearCount rest + 1 := by
        simp [clearCount, List.filter_cons, ha]
      rw [hcc]
      by_cases hc3 : c + 1 > 2
      · rw [if_pos hc3]
        simp
        omega
      · rw [if_neg hc3, ih (c + 1) (by omega)]
        omega
    · rw [show StopWaitResumes.go (a :: rest) c = StopWaitResumes.go rest c from by
        simp [StopWaitResumes.go, ha]]
      have hcc : clearCount (a :: rest) = clearCount rest := by
        simp [clearCount, List.filter_cons, ha]
      rw [hcc]
      exact ih c hc

/-- C6 counterexample: the claim reads the thresholds inclusively and the
resume condition as "clears twice".  At a clear distance of exactly 1.0 m
(below `front_safe_check_dis` = 2.5 m) the code scales `cmd_vel_ratio_` to
0.7, not the claimed 0.5; and two clear samples do not resume the stop-wait
(three are required). -/
theorem c6_front_safety_counterexample :
    (FrontSafeStep 1 (5/2) 0 false false).ratio = 7/10 ∧
    ¬ ((7 : ℚ)/10 = 1/2) ∧
    StopWaitResumes [11/10, 11/10] = false ∧
    clearCount [11/10, 11/10] = 2 := by
  refine ⟨?_, by norm_num, ?_, ?_⟩
  · norm_num [FrontSafeStep]
  · norm_num [StopWaitResumes, StopWaitResumes.go]
  · norm_num [clearCount, List.filter_cons]

/-- C6 (amended): in FIX_CONTROLLING with the near-goal case not applying and
the clear distance `d` below `front_safe_check_dis`: d ≤ 0.6 stops and waits,
resuming only once the path clears three times; 0.6 < d < 1.0 scales
`cmd_vel_ratio_` to 0.5; 1.0 ≤ d < 1.7 scales it to 0.7; and when the
condition has persisted for more than 10 ticks with d < 1.5 and a safe goal
is found on the path, a mid-path replan with planning state
P_INSERTING_MIDDLE is triggered. -/
theorem c6_front_safety_amended (d fcd : ℚ) (cnt : ℕ) (rp gg : Bool) (samples : List ℚ) :
    (d < fcd → d ≤ 6/10 →
      (FrontSafeStep d fcd cnt rp gg).stopBranch = true ∧
      (StopWaitResumes samples = true ↔ 3 ≤ clearCount samples)) ∧
    (d < fcd → 6/10 < d → d < 1 →
      (FrontSafeStep d fcd cnt rp gg).ratio = 1/2) ∧
    (d < fcd → 1 ≤ d → d < 17/10 →
      (FrontSafeStep d fcd cnt rp gg).ratio = 7/10) ∧
    (d < fcd → 6/10 < d → d < 3/2 → rp = false → gg = true → 10 ≤ cnt →
      (FrontSafeStep d fcd cnt rp gg).replanMiddle = true ∧
      (FrontSafeStep d fcd cnt rp gg).planningMiddle = true) := by
  refine ⟨?_, ?_, ?_, ?_⟩
  · intro h1 h2
    constructor
    · simp only [FrontSafeStep, if_pos h1, if_pos h2]
    · rw [show StopWaitResumes samples = StopWaitResumes.go samples 0 from rfl]
      rw [stopWait_go_iff samples 0 (by omega)]
      omega
  · intro h1 h2 h3
    have hn2 : ¬ d ≤ 6/10 := not_le.mpr h2
    simp only [FrontSafeStep, if_pos h1, if_neg hn2, if_pos h3]
    split_ifs <;> rfl
  · intro h1 h2 h3
    have hn2 : ¬ d ≤ 6/10 := not_le.mpr (by linarith)
    have hn3 : ¬ d < 1 := not_lt.mpr h2
    simp only [FrontSafeStep, if_pos h1, if_neg hn2, if_neg hn3, if_pos h3]
    split_ifs <;> rfl
  · intro h1 h2 h3 hrp hgg hcnt
    subst hrp hgg
    have hn2 : ¬ d ≤ 6/10 := not_le.mpr h2
    have hn2' : ¬ d < 6/10 := not_lt.mpr (by linarith)
    have hcnt' : cnt + 1 > 10 := by omega
    simp only [FrontSafeStep, if_pos h1, if_neg hn2, Bool.not_false, Bool.true_and,
      decide_eq_true_eq, if_pos hcnt', if_neg hn2', if_pos h3]
    simp

/-- Witness for C6 (amended) at concrete distances: d = 0.5 enters the stop
branch; d = 0.8 scales to 0.5; d = 1.2 scales to 0.7; d = 1.2 with an
11-tick-old condition and a safe goal triggers the mid-path replan. -/
theorem c6_front_safety_amended_witness :
    (FrontSafeStep (1/2) (5/2) 0 false false).stopBranch = true ∧
    (FrontSafeStep (4/5) (5/2) 0 false false).ratio = 1/2 ∧
    (FrontSafeStep (6/5) (5/2) 0 false false).ratio = 7/10 ∧
    (FrontSafeStep (6/5) (5/2) 11 false true).replanMiddle = true := by
  refine ⟨?_, ?_, ?_, ?_⟩
  · exact ((c6_front_safety_amended (1/2) (5/2) 0 false false []).1
      (by norm_num) (by norm_num)).1
  · exact (c6_front_safety_amended (4/5) (5/2) 0 false false []).2.1
      (by norm_num) (by norm_num) (by norm_num)
  · exact (c6_front_safety_amended (6/5) (5/2) 0 false false []).2.2.1
      (by norm_num) (by norm_num) (by norm_num)
  · exact ((c6_front_safety_amended (6/5) (5/2) 11 false true []).2.2.2
      (by norm_num) (by norm_num) (by norm_num) rfl rfl (by norm_num)).1

/-- C7 counterexample: with 13 accumulated planner timeouts but
`use_farther_planner` set, the footprint-pass branch of
GLOBAL_PLANNER_RECOVERY_R does not terminate the goal — it proceeds to
recovery with `run_flag` intact, against the claim's unconditional
"more than 12 timeouts → unreachable". -/
theorem c7_global_recovery_counterexample :
    GlobalRecoveryStep false 13 0 true = (RecovOutcome.recoverNewGoal, true) ∧
    13 > 12 := by
  exact ⟨by decide, by decide⟩

/-- C7 (amended): when GLOBAL_PLANNER_RECOVERY_R is handled, the footprint
check passes, and `use_farther_planner` is not set, the supervisor emits
I_GOAL_UNREACHABLE and clears `run_flag` exactly when more than 12 planner
timeouts or more than 8 recovery attempts have accumulated. -/
theorem c7_global_recovery_amended (tc rc : ℕ) (uf : Bool) (huf : uf = false) :
    GlobalRecoveryStep false tc rc uf = (RecovOutcome.unreachable, false) ↔
      (12 < tc ∨ 8 < rc) := by
  subst huf
  simp only [GlobalRecoveryStep, Bool.false_eq_true, if_false, Bool.not_false, Bool.and_true,
    Bool.or_eq_true, decide_eq_true_eq]
  split
  next h => simpa using h
  next h =>
    constructor
    · intro hco
      exact absurd hco (by simp)
    · intro hco
      exact absurd hco h

/-- Witness for C7 (amended): 13 timeouts with `use_farther_planner` unset
terminate the goal. -/
theorem c7_global_recovery_amended_witness :
    GlobalRecoveryStep false 13 0 false = (RecovOutcome.unreachable, false) :=
  (c7_global_recovery_amended 13 0 false rfl).mpr (Or.inl (by decide))

/-- C8: in the planner-patience timeout branch of `PlanThread`, once more
than 4 consecutive timeouts accumulate while no initial plan was ever
produced for this goal, the worker emits I_GOAL_UNREACHABLE and clears
`run_flag`; an accepted plan resets the counter (making the count
consecutive). -/
theorem c8_planner_starvation (cnt : ℕ) (h : 4 ≤ cnt) :
    PlanThreadTimeoutStep true true false cnt = (cnt + 1, true, true) ∧
    PlanThreadSuccessCnt = 0 := by
  refine ⟨?_, rfl⟩
  have hgt : cnt + 1 > 4 := by omega
  simp [PlanThreadTimeoutStep, hgt]

/-- Witness for C8: the fifth consecutive timeout with no initial plan
terminates the goal. -/
theorem c8_planner_starvation_witness :
    PlanThreadTimeoutStep true true false 4 = (5, true, true) :=
  (c8_planner_starvation 4 (by decide)).1

/-- C9 counterexample: the new-goal retry wait of FIX_GETNEWGOAL_R
(astar_controller.cc line 1646) polls only the clock: its guard still holds —
and the loop body runs again — after `run_flag` has been cleared, against the
claim that every listed progress-polling loop tests `run_flag` each
iteration. -/
theorem c9_run_flag_counterexample : NewGoalRetryGuard false true = true := rfl

/-- C9 (amended): with `run_flag` cleared, none of the other listed
progress-polling loops — the `PublishVelWithAcc` deceleration loop, the
goal-safety and stop-duration waits, both `HandleGoingBack` loops, the
forward/backward maneuver loops and the rotation loop — passes its guard, so
none performs another iteration or publishes another velocity command; the
new-goal retry wait of FIX_GETNEWGOAL_R is the exception, polling only the
clock. -/
theorem c9_run_flag_amended :
    (∀ (vx : ℚ) (cf : Bool), PublishVelWithAccGuard vx cf false = false) ∧
    (∀ tl : Bool, GoalSafetyWaitGuard tl false = false) ∧
    (∀ tl : Bool, StopDurationWaitGuard tl false = false) ∧
    (∀ tl : Bool, GoingBackStopWaitGuard tl false = false) ∧
    (∀ nb cb : Bool, GoingBackMoveGuard false nb cb = false) ∧
    (∀ tl cb : Bool, GoingBackwardGuard tl cb false = false) ∧
    (∀ tl cf : Bool, GoingForwardGuard tl cf false = false) ∧
    (∀ ab cr : Bool, RotateToYawGuard ab cr false = false) := by
  refine ⟨fun vx cf => ?_, fun tl => ?_, fun tl => ?_, fun tl => ?_, fun nb cb => ?_,
    fun tl cb => ?_, fun tl cf => ?_, fun ab cr => ?_⟩ <;>
    simp [PublishVelWithAccGuard, GoalSafetyWaitGuard, StopDurationWaitGuard,
      GoingBackStopWaitGuard, GoingBackMoveGuard, GoingBackwardGuard, GoingForwardGuard,
      RotateToYawGuard]

/-- C10: every velocity command published from the local-controller branch of
FIX_CONTROLLING has its angular speed outside the open interval (0.08, 0.18):
after scaling, any magnitude strictly inside is replaced by ±0.18, so the
published magnitude is either at most 0.08 or at least 0.18. -/
theorem c10_angular_band (z ratio : ℚ) (err : Bool) :
    |ShapeAngularZ z ratio err| ≤ 8/100 ∨ 18/100 ≤ |ShapeAngularZ z ratio err| := by
  simp only [ShapeAngularZ]
  by_cases hc : |if err = true then z * ratio * (3/4) else z * ratio| < 18/100 ∧
      |if err = true then z * ratio * (3/4) else z * ratio| > 8/100
  · rw [if_pos hc]
    by_cases hp : (if err = true then z * ratio * (3/4) else z * ratio) > 0
    · rw [if_pos hp]
      right
      rw [abs_of_pos (by norm_num : (0 : ℚ) < 18/100)]
    · rw [if_neg hp]
      right
      rw [abs_neg, abs_of_pos (by norm_num : (0 : ℚ) < 18/100)]
  · rw [if_neg hc]
    rw [not_and_or, not_lt, not_lt] at hc
    rcases hc with hc | hc
    · right; exact hc
    · left; exact hc

end NavSlam
